import Mathlib

/-!
Shallow embedding of the FortniteCloneJS prototype (three.js / cannon-es
survival-game prototype) for checking its specification.

The embedding follows the second `Player` variant in `src/main.ts`
(the one used together with `src/core/World.ts`), `World` from
`src/core/World.ts`, and the three `Game.animate` variants
(`src/main.ts`, `src/systems/InputManager.ts`, and the Terrain/Sky
variant).  JS numbers are modelled as rationals where the code only
adds, subtracts, clamps and compares, and as reals where the code
takes square roots (movement-speed clamping) or trigonometric
functions (camera-yaw rotation).
-/

namespace FC

/-! ## Player inventory state: health and wood (`src/main.ts`, Player) -/

structure Inventory where
  health : ℚ
  wood : ℚ
deriving DecidableEq

/-- `private health: number = 100; private wood: number = 0;` -/
def initialInventory : Inventory := { health := 100, wood := 0 }

/-- `public damage(amount) { this.health = Math.max(0, this.health - amount); }` -/
def damage (s : Inventory) (amount : ℚ) : Inventory :=
  { s with health := max 0 (s.health - amount) }

/-- `public heal(amount) { this.health = Math.min(100, this.health + amount); }` -/
def heal (s : Inventory) (amount : ℚ) : Inventory :=
  { s with health := min 100 (s.health + amount) }

/-- `public addWood(amount) { this.wood += amount; }` — note: no clamp. -/
def addWood (s : Inventory) (amount : ℚ) : Inventory :=
  { s with wood := s.wood + amount }

/-- The wood update performed inside `swingPickaxe` when a tree hit lands:
`const newWoodAmount = Math.min(this.wood + woodAmount, 500);
 if (newWoodAmount > this.wood) { this.wood = newWoodAmount; ... }` -/
def swingWoodGain (s : Inventory) (woodAmount : ℚ) : Inventory :=
  let newWoodAmount := min (s.wood + woodAmount) 500
  if newWoodAmount > s.wood then { s with wood := newWoodAmount } else s

/-- One call to `damage` or `heal`, for reasoning about call sequences. -/
inductive HealthOp where
  | damage (amount : ℚ)
  | heal (amount : ℚ)
deriving DecidableEq

def applyHealthOp (s : Inventory) : HealthOp → Inventory
  | .damage a => damage s a
  | .heal a => heal s a

/-- The call passes a nonnegative amount. -/
def nonnegAmount : HealthOp → Prop
  | .damage a => 0 ≤ a
  | .heal a => 0 ≤ a

instance (op : HealthOp) : Decidable (nonnegAmount op) := by
  unfold nonnegAmount; cases op <;> infer_instance

/-- One wood pickup: either a `Player.addWood` call or a pickaxe-hit gain. -/
inductive WoodOp where
  | addWood (amount : ℚ)
  | swingGain (amount : ℚ)
deriving DecidableEq

def applyWoodOp (s : Inventory) : WoodOp → Inventory
  | .addWood a => addWood s a
  | .swingGain a => swingWoodGain s a

/-! ## Weapon selection (`src/main.ts`, Player) -/

inductive WeaponType where
  | pickaxe
  | gun
deriving DecidableEq

structure WeaponState where
  currentWeapon : WeaponType
  pickaxeVisible : Bool
  gunVisible : Bool
deriving DecidableEq

/-- `this.pickaxeModel.visible = this.currentWeapon === WeaponType.PICKAXE;
    this.gunModel.visible = this.currentWeapon === WeaponType.GUN;` -/
def updateWeaponVisibility (s : WeaponState) : WeaponState :=
  { s with
    pickaxeVisible := s.currentWeapon = WeaponType.pickaxe
    gunVisible := s.currentWeapon = WeaponType.gun }

/-- `private switchWeapon(weapon) { this.currentWeapon = weapon;
    this.updateWeaponVisibility(); }` -/
def switchWeapon (s : WeaponState) (w : WeaponType) : WeaponState :=
  updateWeaponVisibility { s with currentWeapon := w }

/-- Constructor state: `currentWeapon = PICKAXE`, the pickaxe group is
created with the default `visible = true`, the gun with `visible = false`,
then `updateWeaponVisibility()` is called. -/
def initialWeaponState : WeaponState :=
  updateWeaponVisibility
    { currentWeapon := WeaponType.pickaxe, pickaxeVisible := true, gunVisible := false }

/-- Exactly one of the two weapon models is visible. -/
def exactlyOneVisible (s : WeaponState) : Prop :=
  (s.pickaxeVisible = true ∧ s.gunVisible = false) ∨
    (s.pickaxeVisible = false ∧ s.gunVisible = true)

instance (s : WeaponState) : Decidable (exactlyOneVisible s) := by
  unfold exactlyOneVisible; infer_instance

/-! ## World tree state (`src/core/World.ts`)

Tree groups are identified by numeric ids.  `treeHealth` models the
`treeData : Map<Object3D, TreeData>` (health component), `sceneTrees`
the children of the `trees` group, `bodies` the tree physics bodies in
the cannon world, and `effects` counts spawned particle effects
(`createHitEffect` / `createDestructionEffect`). -/

structure WorldState where
  treeHealth : List (ℕ × ℤ)
  sceneTrees : List ℕ
  bodies : List ℕ
  effects : ℕ
deriving DecidableEq

/-- `const treeCount = 50;` -/
def treeCount : ℕ := 50

/-- `health: 5, // 5 hits to destroy` -/
def treeInitialHealth : ℤ := 5

/-- `createTrees`: 50 trees, each stored in `treeData` with health 5,
added to the `trees` group, and given a physics body. -/
def createTrees : WorldState :=
  { treeHealth := (List.range treeCount).map (fun i => (i, treeInitialHealth))
    sceneTrees := List.range treeCount
    bodies := List.range treeCount
    effects := 0 }

/-- `this.treeData.get(treeObject)` -/
def lookupTree (w : WorldState) (t : ℕ) : Option ℤ :=
  (w.treeHealth.find? (fun p => p.1 == t)).map Prod.snd

/-- The tree's counter as observable from outside; absent trees read 0. -/
def counterOf (w : WorldState) (t : ℕ) : ℤ :=
  (lookupTree w t).getD 0

/-- `public handleTreeHit(treeObject, hitPoint): number`:
if `treeData` has no entry the call returns 0 (after logging only);
otherwise a hit effect is spawned, `data.health--`, and when
`data.health <= 0` the tree is removed from its parent group, its
physics body removed, its `treeData` entry deleted and a destruction
effect spawned; the call returns 10 wood per hit. -/
def handleTreeHit (w : WorldState) (t : ℕ) : WorldState × ℤ :=
  match lookupTree w t with
  | none => (w, 0)
  | some h =>
    let w1 := { w with effects := w.effects + 1 }
    let h1 := h - 1
    if h1 ≤ 0 then
      ({ w1 with
          treeHealth := w1.treeHealth.filter (fun p => p.1 ≠ t)
          sceneTrees := w1.sceneTrees.filter (fun x => x ≠ t)
          bodies := w1.bodies.filter (fun x => x ≠ t)
          effects := w1.effects + 1 }, 10)
    else
      ({ w1 with
          treeHealth := w1.treeHealth.map (fun p => if p.1 = t then (p.1, h1) else p) },
        10)

/-- Iterated `handleTreeHit` on the same tree object. -/
def hitN (w : WorldState) (t : ℕ) : ℕ → WorldState
  | 0 => w
  | n + 1 => (handleTreeHit (hitN w t n) t).1

/-! ## Physics body state, jump and movement (`src/main.ts`, Player)

Square roots and trigonometric functions force this part of the model
into the reals.  The cannon-es world is abstracted as the boolean
result of the single ray test the code performs. -/

structure Vec3 where
  x : ℝ
  y : ℝ
  z : ℝ

structure MoveKeys where
  forward : Bool
  backward : Bool
  left : Bool
  right : Bool

structure PhysState where
  position : Vec3
  velocity : Vec3
  isJumping : Bool
  yaw : ℝ
  keys : MoveKeys

/-- A cannon-es ray, determined by its two endpoints. -/
structure Ray where
  rayStart : Vec3
  rayEnd : Vec3

/-- The ground-check ray used by both `jump` and `applyMovement`:
`const rayStart = this.playerBody.position.clone();
 const rayEnd = rayStart.clone(); rayEnd.y -= 1.2;` -/
def groundCheckRay (p : Vec3) : Ray :=
  { rayStart := p, rayEnd := { p with y := p.y - 1.2 } }

/-- `private jumpForce: number = 7;` -/
def jumpForce : ℝ := 7

/-- `private moveSpeed: number = 15;` -/
def moveSpeed : ℝ := 15

/-- `private maxVelocity: number = 20;` -/
def maxVelocity : ℝ := 20

/-- `private jump(): void` — `rayHit` abstracts
`ray.intersectWorld(this.physicsWorld, { result }); result.hasHit`. -/
noncomputable def jump (rayHit : Ray → Bool) (s : PhysState) : PhysState :=
  if rayHit (groundCheckRay s.position) && !s.isJumping then
    { s with isJumping := true, velocity := { s.velocity with y := jumpForce } }
  else s

/-- `const acceleration = onGround ? 0.5 : 0.1;` -/
noncomputable def blendRate (onGround : Bool) : ℝ :=
  if onGround then 0.5 else 0.1

/-- `moveDirection` before normalisation: forward/backward move z,
left/right move x. -/
def rawMoveDirection (k : MoveKeys) : Vec3 :=
  { x := (if k.left then (-1 : ℝ) else 0) + (if k.right then 1 else 0)
    y := 0
    z := (if k.forward then (-1 : ℝ) else 0) + (if k.backward then 1 else 0) }

def lengthSq (v : Vec3) : ℝ := v.x * v.x + v.y * v.y + v.z * v.z

/-- `moveDirection.normalize()` -/
noncomputable def normalize (v : Vec3) : Vec3 :=
  let len := Real.sqrt (lengthSq v)
  { x := v.x / len, y := v.y / len, z := v.z / len }

/-- `moveDirection.applyEuler(new THREE.Euler(0, yaw, 0, 'XYZ'))`:
rotation about the y axis by the camera yaw. -/
noncomputable def rotateY (yaw : ℝ) (v : Vec3) : Vec3 :=
  { x := Real.cos yaw * v.x + Real.sin yaw * v.z
    y := v.y
    z := -Real.sin yaw * v.x + Real.cos yaw * v.z }

/-- The velocity blending of `applyMovement`: when a key is held the
velocity is steered toward `moveDirection * moveSpeed` at the blend
rate; otherwise, on the ground, manual friction `*= 0.9` applies. -/
noncomputable def blendVelocity (onGround : Bool) (k : MoveKeys) (yaw : ℝ) (v : Vec3) :
    Vec3 :=
  let d := rawMoveDirection k
  if lengthSq d > 0 then
    let dir := rotateY yaw (normalize d)
    let target : Vec3 := { x := dir.x * moveSpeed, y := v.y, z := dir.z * moveSpeed }
    let a := blendRate onGround
    { x := v.x + (target.x - v.x) * a, y := v.y, z := v.z + (target.z - v.z) * a }
  else if onGround then { x := v.x * 0.9, y := v.y, z := v.z * 0.9 }
  else v

/-- `const horizontalVel = Math.sqrt(velocity.x * velocity.x + velocity.z * velocity.z);` -/
noncomputable def horizontalVel (v : Vec3) : ℝ :=
  Real.sqrt (v.x * v.x + v.z * v.z)

/-- `if (horizontalVel > this.maxVelocity) { const scale = this.maxVelocity / horizontalVel;
 velocity.x *= scale; velocity.z *= scale; }` -/
noncomputable def clampHorizontal (v : Vec3) : Vec3 :=
  if horizontalVel v > maxVelocity then
    let scale := maxVelocity / horizontalVel v
    { x := v.x * scale, y := v.y, z := v.z * scale }
  else v

/-- `private applyMovement(): void` — ground check, `isJumping` reset,
velocity blending, then the horizontal speed clamp. -/
noncomputable def applyMovement (rayHit : Ray → Bool) (s : PhysState) : PhysState :=
  let onGround := rayHit (groundCheckRay s.position)
  let s1 := if onGround then { s with isJumping := false } else s
  { s1 with velocity := clampHorizontal (blendVelocity onGround s.keys s.yaw s1.velocity) }

/-! ## Pickaxe swing hit detection (`src/main.ts`, `swingPickaxe`) -/

/-- One entry of `raycaster.intersectObjects(treesGroup.children, true)`,
keeping the fields the loop inspects: the distance, whether the object
has `userData`, its `userData.isTreePart` tag, whether walking up the
parent chain finds a node with `userData.isTree`, and the id of that
tree group. -/
structure Intersection where
  distance : ℚ
  hasUserData : Bool
  isTreePart : Bool
  ancestorIsTree : Bool
  treeId : ℕ
deriving DecidableEq

/-- `const strikeRange = 5;` -/
def strikeRange : ℚ := 5

/-- `const swingDuration = 500;` -/
def swingDuration : ℚ := 500

/-- Lower edge of the hit window: `progress >= 0.45`. -/
def hitWindowLo : ℚ := 0.45

/-- Upper edge of the hit window: `progress <= 0.60`. -/
def hitWindowHi : ℚ := 0.60

/-- `const progress = Math.min(1, elapsed / swingDuration);` -/
def swingProgress (elapsed : ℚ) : ℚ :=
  min 1 (elapsed / swingDuration)

/-- The loop body's filter: entries farther than `strikeRange` or
without `userData` are skipped (`continue`), and a hit needs a tree
group on the parent chain plus the `isTreePart` tag. -/
def isValidHit (i : Intersection) : Bool :=
  decide (i.distance ≤ strikeRange) && i.hasUserData && i.ancestorIsTree && i.isTreePart

/-- The `for (const intersect of intersects)` loop with its `break`:
only the first valid intersection is processed. -/
def firstTreeHit (hits : List Intersection) : Option Intersection :=
  hits.find? isValidHit

/-- One frame of the swing animation, restricted to its world/inventory
effect: inside the window `[0.45, 0.60]` the ray is cast and the first
valid tree intersection produces a `handleTreeHit` call plus the
clamped wood gain; outside the window nothing happens. -/
def processSwingFrame (w : WorldState) (inv : Inventory) (elapsed : ℚ)
    (hits : List Intersection) : WorldState × Inventory :=
  let progress := swingProgress elapsed
  if hitWindowLo ≤ progress ∧ progress ≤ hitWindowHi then
    match firstTreeHit hits with
    | none => (w, inv)
    | some i =>
      let r := handleTreeHit w i.treeId
      (r.1, swingWoodGain inv r.2)
  else (w, inv)

/-! ## Game.animate variants

Each per-frame step that can throw is modelled as an `Except` value;
the outcome records whether the next frame was scheduled (all variants
call `requestAnimationFrame` first), which errors were logged via
`console.error`, and whether an error escaped the callback. -/

structure FrameOutcome where
  nextFrameScheduled : Bool
  loggedErrors : List String
  thrown : Option String
deriving DecidableEq

/-- `Game.animate` from `src/systems/InputManager.ts`: the whole frame
body is wrapped in `try { ... } catch (error) { console.error(...) }`,
after `requestAnimationFrame` has already been called. -/
def animateTryCatch (worldUpdate playerUpdate render : Except String Unit) :
    FrameOutcome :=
  match (do worldUpdate; playerUpdate; render : Except String Unit) with
  | .ok _ => { nextFrameScheduled := true, loggedErrors := [], thrown := none }
  | .error e => { nextFrameScheduled := true, loggedErrors := [e], thrown := none }

/-- `Game.animate` from `src/main.ts` (first variant): no try/catch;
`requestAnimationFrame(this.animate.bind(this))` runs first, then
world update, player update and render. -/
def animatePlain (worldUpdate playerUpdate render : Except String Unit) :
    FrameOutcome :=
  match (do worldUpdate; playerUpdate; render : Except String Unit) with
  | .ok _ => { nextFrameScheduled := true, loggedErrors := [], thrown := none }
  | .error e => { nextFrameScheduled := true, loggedErrors := [], thrown := some e }

/-- `Game.animate` from the Terrain/Sky variant (`src/unnamed/part_000`):
no try/catch; `requestAnimationFrame` first, then physics step, player
update, sky update and render. -/
def animateSky (physicsStep playerUpdate skyUpdate render : Except String Unit) :
    FrameOutcome :=
  match (do physicsStep; playerUpdate; skyUpdate; render : Except String Unit) with
  | .ok _ => { nextFrameScheduled := true, loggedErrors := [], thrown := none }
  | .error e => { nextFrameScheduled := true, loggedErrors := [], thrown := some e }

/-! ## Concrete fixtures used by witnesses -/

/-- A concrete player physics state: at the origin, at rest, grounded,
no keys held. -/
def demoPhysState : PhysState :=
  { position := { x := 0, y := 0, z := 0 }
    velocity := { x := 0, y := 0, z := 0 }
    isJumping := false
    yaw := 0
    keys := { forward := false, backward := false, left := false, right := false } }

/-- A concrete raycast intersection: tree part of tree 0 at distance 3. -/
def demoHit : Intersection :=
  { distance := 3, hasUserData := true, isTreePart := true, ancestorIsTree := true,
    treeId := 0 }

/-! ## Helper lemmas -/

theorem swingWoodGain_range (s : Inventory) (g : ℚ) (h0 : 0 ≤ s.wood)
    (h5 : s.wood ≤ 500) :
    0 ≤ (swingWoodGain s g).wood ∧ (swingWoodGain s g).wood ≤ 500 := by
  unfold swingWoodGain
  by_cases h : min (s.wood + g) 500 > s.wood
  · simp only [h, if_pos]
    exact ⟨le_of_lt (lt_of_le_of_lt h0 h), min_le_right _ _⟩
  · simp only [h, if_neg, not_false_iff]
    exact ⟨h0, h5⟩

theorem foldl_swingWoodGain_range (gains : List ℚ) (s : Inventory) (h0 : 0 ≤ s.wood)
    (h5 : s.wood ≤ 500) :
    0 ≤ (gains.foldl swingWoodGain s).wood ∧ (gains.foldl swingWoodGain s).wood ≤ 500 := by
  induction gains generalizing s with
  | nil => exact ⟨h0, h5⟩
  | cons g gs ih =>
    exact ih (swingWoodGain s g) (swingWoodGain_range s g h0 h5).1
      (swingWoodGain_range s g h0 h5).2

theorem applyHealthOp_range (s : Inventory) (op : HealthOp) (hop : nonnegAmount op)
    (h0 : 0 ≤ s.health) (h1 : s.health ≤ 100) :
    0 ≤ (applyHealthOp s op).health ∧ (applyHealthOp s op).health ≤ 100 := by
  cases op with
  | damage a =>
    have ha : (0 : ℚ) ≤ a := hop
    simp only [applyHealthOp, damage]
    exact ⟨le_max_left _ _, max_le (by norm_num) (by linarith)⟩
  | heal a =>
    have ha : (0 : ℚ) ≤ a := hop
    simp only [applyHealthOp, heal]
    exact ⟨le_min (by norm_num) (by linarith), min_le_left _ _⟩

theorem foldl_applyHealthOp_range (ops : List HealthOp) (s : Inventory)
    (hops : ∀ op ∈ ops, nonnegAmount op) (h0 : 0 ≤ s.health) (h1 : s.health ≤ 100) :
    0 ≤ (ops.foldl applyHealthOp s).health ∧ (ops.foldl applyHealthOp s).health ≤ 100 := by
  induction ops generalizing s with
  | nil => exact ⟨h0, h1⟩
  | cons op rest ih =>
    have hop := hops op (List.mem_cons_self op rest)
    have hstep := applyHealthOp_range s op hop h0 h1
    exact ih (applyHealthOp s op) (fun o ho => hops o (List.mem_cons_of_mem op ho))
      hstep.1 hstep.2

theorem switchWeapon_exactlyOne (s : WeaponState) (w : WeaponType) :
    exactlyOneVisible (switchWeapon s w) := by
  cases w <;> simp [switchWeapon, updateWeaponVisibility, exactlyOneVisible]

theorem foldl_switchWeapon_exactlyOne (ws : List WeaponType) (s : WeaponState)
    (hs : exactlyOneVisible s) :
    exactlyOneVisible (ws.foldl switchWeapon s) := by
  induction ws generalizing s with
  | nil => exact hs
  | cons w rest ih => exact ih (switchWeapon s w) (switchWeapon_exactlyOne s w)

theorem handleTreeHit_of_not_found (w : WorldState) (t : ℕ)
    (h : lookupTree w t = none) : handleTreeHit w t = (w, 0) := by
  unfold handleTreeHit
  rw [h]

theorem find?_filter_ne (l : List (ℕ × ℤ)) (t : ℕ) :
    (l.filter (fun p => p.1 ≠ t)).find? (fun p => p.1 == t) = none := by
  rw [List.find?_eq_none]
  intro x hx h
  have hmem := List.mem_filter.mp hx
  have hne : x.1 ≠ t := by simpa using hmem.2
  exact hne (by simpa using h)

theorem find?_map_update (l : List (ℕ × ℤ)) (t : ℕ) (h1 : ℤ)
    (h : (l.find? (fun p => p.1 == t)).isSome) :
    ((l.map (fun p => if p.1 = t then (p.1, h1) else p)).find?
        (fun p => p.1 == t)).map Prod.snd = some h1 := by
  induction l with
  | nil => simp at h
  | cons a l ih =>
    by_cases ha : a.1 = t
    · simp [List.find?, ha]
    · have hfa : (a.1 == t) = false := by simpa using ha
      simp only [List.find?, hfa, List.map_cons, if_neg ha] at h ⊢
      exact ih h

theorem handleTreeHit_of_found (w : WorldState) (t : ℕ) (h : ℤ)
    (hl : lookupTree w t = some h) :
    handleTreeHit w t =
      if h - 1 ≤ 0 then
        ({ treeHealth := w.treeHealth.filter (fun p => p.1 ≠ t)
           sceneTrees := w.sceneTrees.filter (fun x => x ≠ t)
           bodies := w.bodies.filter (fun x => x ≠ t)
           effects := w.effects + 1 + 1 }, 10)
      else
        ({ w with
           treeHealth := w.treeHealth.map (fun p => if p.1 = t then (p.1, h - 1) else p)
           effects := w.effects + 1 }, 10) := by
  unfold handleTreeHit
  rw [hl]

theorem counter_decrement (w : WorldState) (t : ℕ) (h : ℤ)
    (hl : lookupTree w t = some h) (hge : 1 ≤ h) :
    counterOf (handleTreeHit w t).1 t = h - 1 := by
  rw [handleTreeHit_of_found w t h hl]
  by_cases hle : h - 1 ≤ 0
  · have heq : h = 1 := le_antisymm (by linarith) hge
    rw [if_pos hle]
    unfold counterOf lookupTree
    simp only [find?_filter_ne, Option.map_none', Option.getD_none]
    omega
  · rw [if_neg hle]
    have hsome : (w.treeHealth.find? (fun p => p.1 == t)).isSome := by
      unfold lookupTree at hl
      cases hfind : w.treeHealth.find? (fun p => p.1 == t) <;>
        simp [hfind] at hl ⊢
    unfold counterOf lookupTree
    rw [find?_map_update _ _ _ hsome]
    simp

theorem horizontalVel_scale (v : Vec3) (s : ℝ) (hs : 0 ≤ s) :
    horizontalVel { x := v.x * s, y := v.y, z := v.z * s } = s * horizontalVel v := by
  unfold horizontalVel
  have h : v.x * s * (v.x * s) + v.z * s * (v.z * s) = s * s * (v.x * v.x + v.z * v.z) := by
    ring
  rw [h, Real.sqrt_mul (mul_self_nonneg s), Real.sqrt_mul_self hs]

theorem clampHorizontal_le (v : Vec3) :
    horizontalVel (clampHorizontal v) ≤ maxVelocity := by
  unfold clampHorizontal
  by_cases hgt : horizontalVel v > maxVelocity
  · rw [if_pos hgt]
    have hmax : (0 : ℝ) < maxVelocity := by norm_num [maxVelocity]
    have hv0 : (0 : ℝ) < horizontalVel v := lt_trans hmax hgt
    have hs : 0 ≤ maxVelocity / horizontalVel v := div_nonneg (le_of_lt hmax) (le_of_lt hv0)
    rw [horizontalVel_scale v _ hs, div_mul_cancel₀ _ (ne_of_gt hv0)]
  · rw [if_neg hgt]
    exact le_of_not_lt hgt

set_option maxHeartbeats 1000000 in
theorem tree_lifecycle_bounded : ∀ t, t < treeCount →
    lookupTree createTrees t = some treeInitialHealth ∧
      (∀ n, n < 5 → lookupTree (hitN createTrees t n) t = some (5 - n)) ∧
      lookupTree (hitN createTrees t 5) t = none ∧
      counterOf (hitN createTrees t 5) t = 0 ∧
      t ∉ (hitN createTrees t 5).sceneTrees ∧
      t ∉ (hitN createTrees t 5).bodies := by decide

theorem hitN_stable (t : ℕ) (h : lookupTree (hitN createTrees t 5) t = none) :
    ∀ m : ℕ, hitN createTrees t (5 + m) = hitN createTrees t 5 := by
  intro m
  induction m with
  | zero => rfl
  | succ k ih =>
    show (handleTreeHit (hitN createTrees t (5 + k)) t).1 = hitN createTrees t 5
    rw [ih, handleTreeHit_of_not_found _ _ h]

/-! ## Claim theorems -/

/-- C1 (counterexample): `Player.addWood` does not clamp — the single
pickup `addWood(600)` from the fresh player raises wood to 600 > 500,
refuting the claim that no operation ever raises wood above 500. -/
theorem C1_counterexample :
    (addWood initialInventory 600).wood = 600 ∧
      ¬ (addWood initialInventory 600).wood ≤ 500 := by
  constructor <;> norm_num [addWood, initialInventory]

/-- C1 (amended): for every sequence of wood gains from pickaxe hits
(the clamped `swingPickaxe` update), the player's wood count stays
within [0, 500]; `Player.addWood` itself is unclamped and excluded. -/
theorem C1_amended (gains : List ℚ) :
    0 ≤ (gains.foldl swingWoodGain initialInventory).wood ∧
      (gains.foldl swingWoodGain initialInventory).wood ≤ 500 :=
  foldl_swingWoodGain_range gains initialInventory (by norm_num [initialInventory])
    (by norm_num [initialInventory])

/-- C2 (counterexample): with arbitrary (negative) amounts the range
[0,100] is escaped: `heal(-200)` from full health yields health −100,
and `damage(-50)` from full health yields 150. -/
theorem C2_counterexample :
    (heal initialInventory (-200)).health = -100 ∧
      (heal initialInventory (-200)).health < 0 ∧
      (damage initialInventory (-50)).health = 150 ∧
      ¬ (damage initialInventory (-50)).health ≤ 100 := by
  refine ⟨?_, ?_, ?_, ?_⟩ <;>
    norm_num [heal, damage, initialInventory, min_def, max_def]

/-- C2 (amended): for every sequence of `Player.damage` / `Player.heal`
calls with nonnegative amounts, the player's health stays within
[0, 100]. -/
theorem C2_amended (ops : List HealthOp) (hops : ∀ op ∈ ops, nonnegAmount op) :
    0 ≤ (ops.foldl applyHealthOp initialInventory).health ∧
      (ops.foldl applyHealthOp initialInventory).health ≤ 100 :=
  foldl_applyHealthOp_range ops initialInventory hops (by norm_num [initialInventory])
    (by norm_num [initialInventory])

/-- C2 (witness): the amended theorem applied to the concrete sequence
`[damage 30, heal 50, damage 90]`. -/
theorem C2_witness :
    0 ≤ (([HealthOp.damage 30, HealthOp.heal 50, HealthOp.damage 90].foldl
        applyHealthOp initialInventory)).health ∧
      (([HealthOp.damage 30, HealthOp.heal 50, HealthOp.damage 90].foldl
        applyHealthOp initialInventory)).health ≤ 100 :=
  C2_amended [HealthOp.damage 30, HealthOp.heal 50, HealthOp.damage 90]
    (by simp [nonnegAmount])

/-- C3: every tree created by `World.createTrees` starts with hit
counter 5; after n < 5 hits the counter reads 5 − n; on the 5th hit
the tree's `treeData` entry is deleted (its counter reads 0), it is
removed from the scene group and its physics body removed, and every
later `handleTreeHit` call on the same object finds no tree data,
returns 0 and changes nothing. -/
theorem C3_tree_lifecycle (t : ℕ) (ht : t < treeCount) :
    lookupTree createTrees t = some treeInitialHealth ∧
      (∀ n, n < 5 → lookupTree (hitN createTrees t n) t = some (5 - n)) ∧
      lookupTree (hitN createTrees t 5) t = none ∧
      counterOf (hitN createTrees t 5) t = 0 ∧
      t ∉ (hitN createTrees t 5).sceneTrees ∧
      t ∉ (hitN createTrees t 5).bodies ∧
      (∀ m, handleTreeHit (hitN createTrees t (5 + m)) t = (hitN createTrees t 5, 0)) := by
  obtain ⟨h1, h2, h3, h4, h5, h6⟩ := tree_lifecycle_bounded t ht
  refine ⟨h1, h2, h3, h4, h5, h6, fun m => ?_⟩
  rw [hitN_stable t h3 m, handleTreeHit_of_not_found _ _ h3]

/-- C3 (witness): the lifecycle at the concrete tree id 7. -/
theorem C3_witness :
    lookupTree (hitN createTrees 7 5) 7 = none ∧
      handleTreeHit (hitN createTrees 7 5) 7 = (hitN createTrees 7 5, 0) :=
  ⟨(C3_tree_lifecycle 7 (by decide)).2.2.1,
    (C3_tree_lifecycle 7 (by decide)).2.2.2.2.2.2 0⟩

/-- C4: after every call to `Player.switchWeapon`, and in every state
reachable from the constructor state by a sequence of `switchWeapon`
calls, exactly one of the two weapon models is visible. -/
theorem C4_weapon_visibility :
    (∀ (s : WeaponState) (w : WeaponType), exactlyOneVisible (switchWeapon s w)) ∧
      (∀ ws : List WeaponType, exactlyOneVisible (ws.foldl switchWeapon initialWeaponState)) :=
  ⟨switchWeapon_exactlyOne,
    fun ws => foldl_switchWeapon_exactlyOne ws initialWeaponState (by decide)⟩

/-- C5: `Player.jump` casts a downward ray of length 1.2 from the body
position; it changes the vertical velocity only when that ray reports a
hit and the player is not already jumping, in which case it sets the
vertical velocity directly to `jumpForce = 7`; if the ray reports no
hit (or the player is jumping) the whole state is unchanged. -/
theorem C5_jump (rayHit : Ray → Bool) (s : PhysState) :
    (groundCheckRay s.position).rayStart.y - (groundCheckRay s.position).rayEnd.y = 1.2 ∧
      (rayHit (groundCheckRay s.position) = false → jump rayHit s = s) ∧
      (s.isJumping = true → jump rayHit s = s) ∧
      (rayHit (groundCheckRay s.position) = true → s.isJumping = false →
        jump rayHit s =
          { s with isJumping := true, velocity := { s.velocity with y := jumpForce } } ∧
        jumpForce = 7) := by
  refine ⟨?_, ?_, ?_, ?_⟩
  · simp only [groundCheckRay]
    ring
  · intro h
    simp [jump, h]
  · intro h
    simp [jump, h]
  · intro h1 h2
    exact ⟨by simp [jump, h1, h2], rfl⟩

/-- C5 (witness): with a physics oracle whose ray test always hits and
a grounded resting player, `jump` fires and sets the vertical velocity
to `jumpForce`. -/
theorem C5_witness :
    (fun _ : Ray => true) (groundCheckRay demoPhysState.position) = true ∧
      demoPhysState.isJumping = false ∧
      jump (fun _ => true) demoPhysState =
        { demoPhysState with
          isJumping := true
          velocity := { demoPhysState.velocity with y := jumpForce } } :=
  ⟨rfl, rfl, ((C5_jump (fun _ => true) demoPhysState).2.2.2 rfl rfl).1⟩

/-- C6: at the end of every `Player.applyMovement` call the horizontal
speed `sqrt(vx² + vz²)` is at most `maxVelocity = 20`; when the blended
velocity exceeds the maximum both horizontal components are scaled by
`maxVelocity / horizontalVel`, and the blend rate is 0.5 when the
ground ray hits and 0.1 otherwise. -/
theorem C6_applyMovement (rayHit : Ray → Bool) (s : PhysState) :
    horizontalVel (applyMovement rayHit s).velocity ≤ maxVelocity ∧
      (∀ v : Vec3, maxVelocity < horizontalVel v →
        clampHorizontal v =
          { x := v.x * (maxVelocity / horizontalVel v), y := v.y,
            z := v.z * (maxVelocity / horizontalVel v) }) ∧
      blendRate true = 0.5 ∧ blendRate false = 0.1 ∧ maxVelocity = 20 := by
  refine ⟨clampHorizontal_le _, ?_, by simp [blendRate], by simp [blendRate], rfl⟩
  intro v hv
  unfold clampHorizontal
  rw [if_pos hv]

/-- C6 (witness): the clamp branch exercised at the concrete velocity
(30, 0, 40), whose horizontal speed is 50 > 20. -/
theorem C6_witness :
    maxVelocity < horizontalVel { x := 30, y := 0, z := 40 } ∧
      clampHorizontal { x := 30, y := 0, z := 40 } =
        { x := 30 * (maxVelocity / horizontalVel { x := 30, y := 0, z := 40 }), y := 0,
          z := 40 * (maxVelocity / horizontalVel { x := 30, y := 0, z := 40 }) } := by
  have h50 : horizontalVel { x := 30, y := 0, z := (40 : ℝ) } = 50 := by
    show Real.sqrt (30 * 30 + 40 * 40) = 50
    rw [show (30 : ℝ) * 30 + 40 * 40 = 50 ^ 2 by norm_num, Real.sqrt_sq (by norm_num)]
  have hlt : maxVelocity < horizontalVel { x := 30, y := 0, z := (40 : ℝ) } := by
    rw [h50]
    norm_num [maxVelocity]
  exact ⟨hlt, (C6_applyMovement (fun _ => false) demoPhysState).2.1 _ hlt⟩

/-- C7: during a pickaxe swing the hit ray (fixed range 5) is processed
only while the swing progress lies in [0.45, 0.60]; among the returned
intersections only the first valid tree-part-in-tree-hierarchy one is
treated as a hit, and that hit decrements the tree's counter by exactly
1 via `handleTreeHit`. -/
theorem C7_swing_hit (w : WorldState) (inv : Inventory) (elapsed : ℚ)
    (hits : List Intersection) :
    (¬(hitWindowLo ≤ swingProgress elapsed ∧ swingProgress elapsed ≤ hitWindowHi) →
        processSwingFrame w inv elapsed hits = (w, inv)) ∧
      (hitWindowLo ≤ swingProgress elapsed → swingProgress elapsed ≤ hitWindowHi →
        (firstTreeHit hits = none → processSwingFrame w inv elapsed hits = (w, inv)) ∧
        (∀ i, firstTreeHit hits = some i →
          processSwingFrame w inv elapsed hits =
            ((handleTreeHit w i.treeId).1, swingWoodGain inv (handleTreeHit w i.treeId).2))) ∧
      (∀ t h, lookupTree w t = some h → 1 ≤ h →
        counterOf (handleTreeHit w t).1 t = h - 1) ∧
      (∀ i, isValidHit i = true →
        i.distance ≤ strikeRange ∧ i.isTreePart = true ∧ i.ancestorIsTree = true) ∧
      strikeRange = 5 := by
  refine ⟨?_, ?_, fun t h hl hge => counter_decrement w t h hl hge, ?_, rfl⟩
  · intro hn
    simp only [processSwingFrame]
    rw [if_neg hn]
  · intro h1 h2
    constructor
    · intro hnone
      simp only [processSwingFrame]
      rw [if_pos ⟨h1, h2⟩, hnone]
    · intro i hi
      simp only [processSwingFrame]
      rw [if_pos ⟨h1, h2⟩, hi]
  · intro i hv
    simp only [isValidHit, Bool.and_eq_true, decide_eq_true_eq] at hv
    tauto

/-- C7 (witness): at elapsed time 250 ms (progress 0.5, inside the
window) with one valid intersection on tree 0, the frame processes that
hit, and the fresh tree 0's counter drops from 5 to 4. -/
theorem C7_witness :
    hitWindowLo ≤ swingProgress 250 ∧ swingProgress 250 ≤ hitWindowHi ∧
      firstTreeHit [demoHit] = some demoHit ∧
      processSwingFrame createTrees initialInventory 250 [demoHit] =
        ((handleTreeHit createTrees demoHit.treeId).1,
          swingWoodGain initialInventory (handleTreeHit createTrees demoHit.treeId).2) ∧
      lookupTree createTrees 0 = some 5 ∧
      counterOf (handleTreeHit createTrees 0).1 0 = 5 - 1 := by
  have h1 : hitWindowLo ≤ swingProgress 250 := by
    norm_num [hitWindowLo, swingProgress, swingDuration, min_def]
  have h2 : swingProgress 250 ≤ hitWindowHi := by
    norm_num [hitWindowHi, swingProgress, swingDuration, min_def]
  have h3 : firstTreeHit [demoHit] = some demoHit := by
    simp only [firstTreeHit, List.find?, isValidHit, demoHit, strikeRange]
    norm_num
  have h5 : lookupTree createTrees 0 = some 5 := by decide
  exact ⟨h1, h2, h3,
    ((C7_swing_hit createTrees initialInventory 250 [demoHit]).2.1 h1 h2).2 demoHit h3,
    h5,
    (C7_swing_hit createTrees initialInventory 250 [demoHit]).2.2.1 0 5 h5 (by norm_num)⟩

/-- C8 (counterexample): the `Game.animate` variant of `src/main.ts`
has no try/catch: a failing world update is neither caught nor logged
(it escapes the frame callback), refuting the claim for that variant. -/
theorem C8_counterexample :
    (animatePlain (Except.error "boom") (Except.ok ()) (Except.ok ())).loggedErrors = [] ∧
      (animatePlain (Except.error "boom") (Except.ok ()) (Except.ok ())).thrown =
        some "boom" := by
  constructor <;> rfl

/-- C8 (amended): every `Game.animate` variant schedules the next frame
first, so a per-frame error never stops the frame loop; but only the
`InputManager.ts` variant catches and logs the error — in the
`src/main.ts` and Terrain/Sky variants the error is neither caught nor
logged and escapes the callback. -/
theorem C8_amended :
    (∀ w p r : Except String Unit,
        (animateTryCatch w p r).nextFrameScheduled = true ∧
        (animateTryCatch w p r).thrown = none ∧
        (animatePlain w p r).nextFrameScheduled = true) ∧
      (∀ w p s r : Except String Unit, (animateSky w p s r).nextFrameScheduled = true) ∧
      (∀ (e : String) (p r : Except String Unit),
        animateTryCatch (Except.error e) p r =
          { nextFrameScheduled := true, loggedErrors := [e], thrown := none } ∧
        animatePlain (Except.error e) p r =
          { nextFrameScheduled := true, loggedErrors := [], thrown := some e }) ∧
      (∀ (e : String) (p s r : Except String Unit),
        animateSky (Except.error e) p s r =
          { nextFrameScheduled := true, loggedErrors := [], thrown := some e }) := by
  refine ⟨fun w p r => ?_, fun w p s r => ?_, fun e p r => ⟨rfl, rfl⟩, fun e p s r => rfl⟩
  · cases w <;> cases p <;> cases r <;>
      exact ⟨rfl, rfl, rfl⟩
  · cases w <;> cases p <;> cases s <;> cases r <;> rfl

/-- C9: for an object not tracked in the tree map, `World.handleTreeHit`
returns 0 and leaves the whole world state (tree map, scene group,
physics bodies, effects) unchanged. -/
theorem C9_missing_tree (w : WorldState) (t : ℕ) (h : lookupTree w t = none) :
    handleTreeHit w t = (w, 0) :=
  handleTreeHit_of_not_found w t h

/-- C9 (witness): tree id 50 was never created, so hitting it is a
no-op returning 0. -/
theorem C9_witness :
    lookupTree createTrees 50 = none ∧ handleTreeHit createTrees 50 = (createTrees, 0) :=
  ⟨by decide, C9_missing_tree createTrees 50 (by decide)⟩

/-- C10: `Player.switchWeapon(w)` is idempotent and history-independent:
the post-state is a function of `w` alone (any two pre-states agree),
applying it twice equals applying it once, and `currentWeapon` ends
equal to `w`. -/
theorem C10_switchWeapon_idempotent (s s' : WeaponState) (w : WeaponType) :
    switchWeapon s w = switchWeapon s' w ∧
      switchWeapon (switchWeapon s w) w = switchWeapon s w ∧
      (switchWeapon s w).currentWeapon = w := by
  cases w <;> simp [switchWeapon, updateWeaponVisibility]

end FC
